import Mathlib

/-!
Verification of the vxdna host renderer (src/vxdna) against its
natural-language specification.  The definitions below are a shallow
embedding of the C++ sources: `vaccel_resource::write` / `read`
(vaccel_internal.h), `vxdna::dispatch_ccmd` and the CCMD handlers
(vaccel_amdxdna.cpp), the hwctx sync-point slot and fence retirement
worker, the error wrapping shim (vaccel_amdxdna.h), the capset, and
`vxdna_bo`.  Bytes are `Nat` values below 256, guest iovecs are lists of
bytes, 32/64-bit machine arithmetic is made explicit with `% 2 ^ 32`
where the source can wrap.  Definitions come first, theorems follow.
-/

/-- One guest iovec, modelled by its byte contents; `iov_len` is the
list length and `iov_base` the position of the list in the resource. -/
abbrev Iovec := List Nat

/-- Combined length of a resource's iovec list. -/
def iovTotalLen (iovs : List Iovec) : Nat := (iovs.map List.length).sum

/-- `vaccel_resource::write(offset, buf, size)` from vaccel_internal.h:
walks the iovecs in order, skipping (and decrementing the offset by)
iovecs that the offset passes over, then copies
`min(size, iov_len - offset)` bytes into each subsequent iovec.  The
buffer argument carries exactly `size` bytes.  Returns the updated
iovec contents together with the number of bytes that remained; the
C++ code throws `-EINVAL` when that leftover is positive, after the
copies already happened (the operation is not transactional). -/
def res_write : List Iovec → Nat → List Nat → List Iovec × Nat
  | [], _, buf => ([], buf.length)
  | iov :: rest, offset, buf =>
    if offset ≥ iov.length then
      let r := res_write rest (offset - iov.length) buf
      (iov :: r.1, r.2)
    else
      let len := min buf.length (iov.length - offset)
      let iov2 := iov.take offset ++ buf.take len ++ iov.drop (offset + len)
      let r := res_write rest 0 (buf.drop len)
      (iov2 :: r.1, r.2)

/-- `vaccel_resource::read(offset, buf, size)` from vaccel_internal.h:
same walk as `res_write`, copying out of the iovecs.  Returns the bytes
read together with the number of bytes that remained unread; the C++
code throws `-EINVAL` when that leftover is positive. -/
def res_read : List Iovec → Nat → Nat → List Nat × Nat
  | [], _, size => ([], size)
  | iov :: rest, offset, size =>
    if offset ≥ iov.length then res_read rest (offset - iov.length) size
    else
      let len := min size (iov.length - offset)
      let r := res_read rest 0 (size - len)
      ((iov.drop offset).take len ++ r.1, r.2)

/-- The CCMD wire header `struct vdrm_ccmd_req` {cmd, len, seqno, rsp_off},
each field a 32-bit value. -/
structure vdrm_ccmd_req where
  cmd : Nat
  len : Nat
  seqno : Nat
  rsp_off : Nat
deriving DecidableEq

/-- `ARRAY_SIZE(amdxdna_ccmd_dispatch_table)`: the table has 11 entries. -/
def AMDXDNA_CCMD_COUNT : Nat := 11

/-- One entry of the dispatch table: `{name, handler, size}`.  The handler
function pointer is abstracted to whether it is non-null; every entry of
the source table carries a handler.  `size` is `sizeof(struct
amdxdna_ccmd_<name>_req)`, a constant of the external wire ABI, kept as a
parameter below. -/
structure amdxdna_ccmd_dispatch_entry where
  name : String
  hasHandler : Bool
  size : Nat
deriving DecidableEq

/-- The 11 entry names of `amdxdna_ccmd_dispatch_table`, in table order. -/
def amdxdna_ccmd_names : List String :=
  ["nop", "init", "create_bo", "destroy_bo", "create_ctx", "destroy_ctx",
   "config_ctx", "exec_cmd", "wait_cmd", "get_info", "read_sysfs"]

/-- `amdxdna_ccmd_dispatch_table`, abstracted over the external request
struct sizes. -/
def amdxdna_ccmd_dispatch_table (sizes : Fin 11 → Nat) (i : Fin 11) :
    amdxdna_ccmd_dispatch_entry :=
  { name := amdxdna_ccmd_names.getD i.val "", hasHandler := true, size := sizes i }

/-- Outcome of `vxdna::dispatch_ccmd`: a thrown `vaccel_error` code, an
out-of-bounds read of the dispatch table (undefined behavior in the
C++), or the invocation of the selected handler on the scratch buffer. -/
inductive DispatchOutcome where
  | throwErr (code : Int)
  | oobTableRead (index : Nat)
  | handlerInvoked (index : Fin 11) (scratch : List Nat)
deriving DecidableEq

/-- `memset(&buf[a], 0, n)` on a byte list. -/
def memsetZero (l : List Nat) (a n : Nat) : List Nat :=
  l.take a ++ List.replicate n 0 ++ l.drop (a + n)

/-- `vxdna::dispatch_ccmd` (vaccel_amdxdna.cpp): checks `hdr->cmd >
ARRAY_SIZE(table)` only, indexes the table at `hdr->cmd - 1` in uint32
arithmetic, rejects a missing handler and `hdr->len < ccmd->size` with
-EINVAL, then copies `hdr->len` guest bytes into a zero-initialised
scratch vector of `max(ccmd->size, hdr->len)` bytes, zeroing the tail
when `ccmd->size > hdr->len`, and invokes the handler on it.  `guest` is
the guest packet (header plus payload) as bytes. -/
def dispatch_ccmd (sizes : Fin 11 → Nat) (hdr : vdrm_ccmd_req) (guest : List Nat) :
    DispatchOutcome :=
  if hdr.cmd > AMDXDNA_CCMD_COUNT then .throwErr (-22)
  else
    -- hdr->cmd - 1 computed in uint32_t arithmetic
    let index := (hdr.cmd + (2 ^ 32 - 1)) % 2 ^ 32
    if h : index < AMDXDNA_CCMD_COUNT then
      let ccmd := amdxdna_ccmd_dispatch_table sizes ⟨index, h⟩
      if ccmd.hasHandler = false then .throwErr (-22)
      else if hdr.len < ccmd.size then .throwErr (-22)
      else
        let ccmd_size := max ccmd.size hdr.len
        let buf := guest.take hdr.len ++ List.replicate (ccmd_size - hdr.len) 0
        let buf2 :=
          if ccmd.size > hdr.len then memsetZero buf hdr.len (ccmd.size - hdr.len)
          else buf
        .handlerInvoked ⟨index, h⟩ buf2
    else
      .oobTableRead index

/-- `class vaccel_fence` (vaccel_internal.h): immutable record passed
from submission to the retirement worker. -/
structure vaccel_fence where
  id : Nat
  sync_point : Nat
  syncobj_handle : Nat
  ring_idx : Nat
  timeout_nsec : Int
deriving DecidableEq

/-- Identity of one hwctx, captured by its retirement machinery:
the device cookie, the owning context id, the kernel hwctx handle
(doubling as ring index) and the timeline syncobj handle. -/
structure HwctxIds where
  cookie : Nat
  ctx_id : Nat
  hwctx_handle : Nat
  syncobj_handle : Nat
deriving DecidableEq

/-- Observable actions of the hwctx retirement machinery. -/
inductive HwctxEvent where
  | syncobjTimelineWait (sync_point : Nat) (timeout_nsec : Int) (ret : Int)
  | logWaitError
  | writeContextFence (cookie ctx_id ring_idx fence_id : Nat)
deriving DecidableEq

/-- `vxdna_hwctx::poll_and_retire_pending` (vaccel_amdxdna.cpp): for each
fence of the drained batch, front to back, issue
`DRM_IOCTL_SYNCOBJ_TIMELINE_WAIT` on the fence's sync point with the
fence's timeout, log on a nonzero return, and invoke
`write_fence_callback(cookie, ctx_id, hwctx_handle, fence->get_id())`
regardless of the wait outcome.  `wait_ret` gives the kernel's return
value for each wait (0 success, nonzero error or timeout). -/
def poll_and_retire_pending (hw : HwctxIds) (wait_ret : vaccel_fence → Int) :
    List vaccel_fence → List HwctxEvent
  | [] => []
  | fence :: rest =>
    [HwctxEvent.syncobjTimelineWait fence.sync_point fence.timeout_nsec
        (wait_ret fence)] ++
    (if wait_ret fence ≠ 0 then [HwctxEvent.logWaitError] else []) ++
    [HwctxEvent.writeContextFence hw.cookie hw.ctx_id hw.hwctx_handle fence.id] ++
    poll_and_retire_pending hw wait_ret rest

/-- Projection selecting the retirement-callback invocations of a trace,
as (cookie, ctx_id, ring_idx, fence_id) tuples. -/
def fenceCallbacks : List HwctxEvent → List (Nat × Nat × Nat × Nat)
  | [] => []
  | HwctxEvent.writeContextFence c x r f :: rest => (c, x, r, f) :: fenceCallbacks rest
  | _ :: rest => fenceCallbacks rest

/-- The hwctx sync-point slot and pending queue, guarded in the source
by `fences_lock`: `sync_point` and `timeout_nsec` are the latched wait
parameters, `has_sync_point` says whether the slot is Latched, and
`pending_fences` is the FIFO the retirement thread drains. -/
structure HwctxSlotState where
  sync_point : Nat
  timeout_nsec : Int
  has_sync_point : Bool
  pending_fences : List vaccel_fence
deriving DecidableEq

/-- `vxdna_hwctx::set_sync_point` (vaccel_amdxdna.h), called by
`vxdna_context::wait_cmd`: latch the sync point and timeout. -/
def set_sync_point (s : HwctxSlotState) (sync_point_in : Nat)
    (timeout_nsec_in : Int) : HwctxSlotState :=
  { s with sync_point := sync_point_in, timeout_nsec := timeout_nsec_in,
           has_sync_point := true }

/-- `vxdna_hwctx::submit_fence` (vaccel_amdxdna.cpp): with no latched
sync point, invoke the retirement callback synchronously and return;
otherwise enqueue a fence record carrying the latched sync point and
timeout and clear the latch. -/
def submit_fence (hw : HwctxIds) (s : HwctxSlotState) (fence_id : Nat) :
    HwctxSlotState × List HwctxEvent :=
  if ¬ s.has_sync_point then
    (s, [HwctxEvent.writeContextFence hw.cookie hw.ctx_id hw.hwctx_handle fence_id])
  else
    ({ s with
        pending_fences := s.pending_fences ++
          [⟨fence_id, s.sync_point, hw.syncobj_handle, hw.hwctx_handle,
            s.timeout_nsec⟩],
        has_sync_point := false }, [])

/-- The operations that touch the sync-point slot. -/
inductive HwctxOp where
  | waitCmd (seq : Nat) (timeout_nsec : Int)
  | submitFence (fence_id : Nat)
deriving DecidableEq

/-- One step of the slot state machine. -/
def hwctx_step (hw : HwctxIds) (s : HwctxSlotState) :
    HwctxOp → HwctxSlotState × List HwctxEvent
  | .waitCmd seq t => (set_sync_point s seq t, [])
  | .submitFence fid => submit_fence hw s fid

/-- Little-endian bytes of a 32-bit unsigned value. -/
def u32le (v : Nat) : List Nat :=
  [v % 256, v / 2 ^ 8 % 256, v / 2 ^ 16 % 256, v / 2 ^ 24 % 256]

/-- Little-endian bytes of a 32-bit signed value (two's complement). -/
def i32le (v : Int) : List Nat := u32le (v % 2 ^ 32).toNat

/-- Modelled from the spec: `struct amdxdna_ccmd_rsp` lives in
amdxdna_proto.h, an external-ABI header not under src/; the spec says
responses "always begin with {ret:i32, len:u32}" and the source sets
`rsp.ret = err; rsp.base.len = sizeof(rsp)` with `sizeof(rsp)` = 8.
These are its wire bytes. -/
def amdxdna_ccmd_rsp_bytes (ret : Int) (len : Nat) : List Nat :=
  i32le ret ++ u32le len

/-- sizeof(struct amdxdna_ccmd_rsp): two 32-bit fields. -/
def amdxdna_ccmd_rsp_size : Nat := 8

/-- `vxdna_context::write_err_rsp` (vaccel_amdxdna.cpp): write a zeroed
`amdxdna_ccmd_rsp` with `ret = err` and `base.len = sizeof(rsp)` at
offset 0 of the bound response resource. -/
def write_err_rsp (resp : List Iovec) (err : Int) : List Iovec × Nat :=
  res_write resp 0 (amdxdna_ccmd_rsp_bytes err amdxdna_ccmd_rsp_size)

/-- Result of running one CCMD handler body over the bound response
resource: normal return, a thrown `vaccel_error` with its code, or any
other exception; each carries the response-resource contents at that
point (the operations are not transactional). -/
inductive HandlerOutcome where
  | ok (resp : List Iovec)
  | vaccelErr (code : Int) (resp : List Iovec)
  | otherExc (resp : List Iovec)
deriving DecidableEq

/-- `vxdna_ccmd_error_wrap` (vaccel_amdxdna.h): run the body; on a
`vaccel_error` write its code as an error response and rethrow; on any
other exception write -EIO (-5) and rethrow. -/
def vxdna_ccmd_error_wrap (body : List Iovec → HandlerOutcome)
    (resp : List Iovec) : HandlerOutcome :=
  match body resp with
  | .ok r => .ok r
  | .vaccelErr c r => .vaccelErr c (write_err_rsp r c).1
  | .otherExc r => .otherExc (write_err_rsp r (-5)).1

/-- From the handler definitions in vaccel_amdxdna.cpp: which of the 11
dispatch-table handlers run their body inside `vxdna_ccmd_error_wrap`.
`vxdna_ccmd_nop` (entry 0) and `vxdna_ccmd_init` (entry 1) do not; the
nine others do. -/
def handler_uses_error_wrap : Fin 11 → Bool := fun i => decide (2 ≤ i.val)

/-- `vxdna_ccmd_init` (vaccel_amdxdna.cpp): look up the resource named
by `req->rsp_res_id` in the device resource table and bind it as the
context's response resource; throw -EINVAL when it is missing.  The
body does not run inside `vxdna_ccmd_error_wrap`, so the context's
response-resource state is returned unchanged on the error path. -/
def vxdna_ccmd_init (lookup : Option (List Iovec))
    (resp_res : Option (List Iovec)) : Except Int Unit × Option (List Iovec) :=
  match lookup with
  | none => (Except.error (-22), resp_res)
  | some res => (Except.ok (), some res)

/-- Modelled from the spec: the `struct vaccel_drm_capset` definition
that vaccel_amdxdna.h compiles against is not under src/ (the header
copy at include/vaccel_renderer.h declares members max_version,
min_version, context_type, which do not match the designated
initializer in vaccel_amdxdna.h).  The spec lists its fields as five
32-bit values {wire_format_version, version_major, version_minor,
version_patchlevel, context_type}, matching that initializer. -/
structure vaccel_drm_capset where
  wire_format_version : Nat
  version_major : Nat
  version_minor : Nat
  version_patchlevel : Nat
  context_type : Nat
deriving DecidableEq

/-- sizeof(struct vaccel_drm_capset): five packed 32-bit fields. -/
def vaccel_drm_capset_size : Nat := 5 * 4

/-- `vxdna::capset` (vaccel_amdxdna.h): {1, 1, 0, 0, AMDXDNA = 0}. -/
def vxdna_capset : vaccel_drm_capset :=
  { wire_format_version := 1, version_major := 1, version_minor := 0,
    version_patchlevel := 0, context_type := 0 }

/-- `vxdna::get_capset_info` (vaccel_amdxdna.cpp) with both out-pointers
non-null: stores `capset.version_major` into *max_version and
`sizeof(capset)` into *max_size. -/
def get_capset_info : Nat × Nat :=
  (vxdna_capset.version_major, vaccel_drm_capset_size)

/-- `AMDXDNA_INVALID_ADDR` (~0UL, external kernel ABI). -/
def AMDXDNA_INVALID_ADDR : Nat := 2 ^ 64 - 1

/-- `struct amdxdna_drm_get_bo_info` as filled in by the
DRM_IOCTL_AMDXDNA_GET_BO_INFO ioctl (the fields the constructors read). -/
structure amdxdna_drm_get_bo_info where
  map_offset : Nat
  vaddr : Nat
  xdna_addr : Nat
deriving DecidableEq

/-- The `vxdna_bo` state the constructors establish. -/
structure vxdna_bo where
  size : Nat
  vaddr : Nat
  map_offset : Nat
  xdna_addr : Nat
  map_size : Nat
  bo_handle : Nat
  bo_type : Nat
deriving DecidableEq

/-- `vxdna_bo::vxdna_bo(int ctx_fd, req)` (device-only, success path):
the kernel create-BO ioctl returns `create_handle`; `vaddr`,
`map_offset` and `xdna_addr` come from the get-bo-info ioctl. -/
def vxdna_bo_dev (req_size req_bo_type : Nat) (create_handle : Nat)
    (bo_info : amdxdna_drm_get_bo_info) : vxdna_bo :=
  { size := req_size, bo_type := req_bo_type, map_size := 0,
    bo_handle := create_handle, map_offset := bo_info.map_offset,
    xdna_addr := bo_info.xdna_addr, vaddr := bo_info.vaddr }

/-- `vxdna_bo::vxdna_bo(res, ctx_fd, req)` (resource-backed, success
path): like the device-only form, but `vaddr` is finally overwritten
with the address `mmap` returned and `map_size` is the summed iovec
length. -/
def vxdna_bo_res (req_size req_bo_type map_size : Nat) (create_handle : Nat)
    (bo_info : amdxdna_drm_get_bo_info) (mmap_vaddr : Nat) : vxdna_bo :=
  { size := req_size, bo_type := req_bo_type, map_size := map_size,
    bo_handle := create_handle, map_offset := bo_info.map_offset,
    xdna_addr := bo_info.xdna_addr, vaddr := mmap_vaddr }

/-- `vxdna_bo::get_addr` (vaccel_amdxdna.h): the xdna address when
valid, else the BO's virtual address. -/
def vxdna_bo.get_addr (bo : vxdna_bo) : Nat :=
  if bo.xdna_addr ≠ AMDXDNA_INVALID_ADDR then bo.xdna_addr else bo.vaddr

/-- The (xdna_addr, handle) pair of `struct amdxdna_ccmd_create_bo_rsp`
as filled by `vxdna_context::create_bo`:
`rsp.xdna_addr = bo->get_addr(); rsp.handle = bo->get_handle()`. -/
structure amdxdna_ccmd_create_bo_rsp_fields where
  xdna_addr : Nat
  handle : Nat
deriving DecidableEq

/-- The response `vxdna_context::create_bo` writes for a freshly
constructed BO. -/
def create_bo_rsp_of (bo : vxdna_bo) : amdxdna_ccmd_create_bo_rsp_fields :=
  { xdna_addr := bo.get_addr, handle := bo.bo_handle }

/-- `res_read` is the take/drop slice of the flattened iovec contents,
and its leftover count is what did not fit before the end. -/
theorem res_read_eq (iovs : List Iovec) (offset size : Nat) :
    res_read iovs offset size =
      ((iovs.flatten.drop offset).take size, size - (iovTotalLen iovs - offset)) := by
  induction iovs generalizing offset size with
  | nil => simp [res_read, iovTotalLen]
  | cons iov rest ih =>
    simp only [res_read]
    by_cases h : offset ≥ iov.length
    · rw [if_pos h, ih]
      have hdrop : (iov :: rest).flatten.drop offset =
          rest.flatten.drop (offset - iov.length) := by
        have h2 : offset = iov.length + (offset - iov.length) := by omega
        conv_lhs => rw [List.flatten_cons, h2]
        rw [List.drop_append]
      rw [hdrop]
      simp only [Prod.mk.injEq, true_and]
      simp only [iovTotalLen, List.map_cons, List.sum_cons]
      omega
    · push_neg at h
      rw [if_neg (by omega), ih]
      have hlen : (iov.drop offset).length = iov.length - offset := by
        simp
      have hflat : (iov :: rest).flatten.drop offset =
          iov.drop offset ++ rest.flatten := by
        rw [List.flatten_cons, List.drop_append_of_le_length (by omega)]
      simp only [Prod.mk.injEq, List.drop_zero]
      refine ⟨?_, ?_⟩
      · rw [hflat, List.take_append_eq_append_take, hlen]
        congr 1
        · exact List.take_eq_take.mpr (by rw [hlen]; omega)
        · congr 1
          omega
      · simp only [iovTotalLen, List.map_cons, List.sum_cons]
        omega

/-- `res_write` preserves the iovec shape: every iovec keeps its length. -/
theorem res_write_shape (iovs : List Iovec) (offset : Nat) (buf : List Nat) :
    ((res_write iovs offset buf).1).map List.length = iovs.map List.length := by
  induction iovs generalizing offset buf with
  | nil => rfl
  | cons iov rest ih =>
    simp only [res_write]
    by_cases h : offset ≥ iov.length
    · rw [if_pos h]
      simp [ih]
    · rw [if_neg (by omega)]
      simp only [List.map_cons, ih, List.cons.injEq, and_true]
      simp only [List.length_append, List.length_take, List.length_drop]
      omega

/-- Total iovec length is unchanged by `res_write`. -/
theorem res_write_total (iovs : List Iovec) (offset : Nat) (buf : List Nat) :
    iovTotalLen (res_write iovs offset buf).1 = iovTotalLen iovs := by
  unfold iovTotalLen
  rw [res_write_shape]

/-- The leftover count of `res_write` is the part of the buffer that did
not fit before the end of the iovecs. -/
theorem res_write_remaining (iovs : List Iovec) (offset : Nat) (buf : List Nat) :
    (res_write iovs offset buf).2 = buf.length - (iovTotalLen iovs - offset) := by
  induction iovs generalizing offset buf with
  | nil => simp [res_write, iovTotalLen]
  | cons iov rest ih =>
    simp only [res_write]
    by_cases h : offset ≥ iov.length
    · rw [if_pos h, ih]
      simp only [iovTotalLen, List.map_cons, List.sum_cons]
      omega
    · rw [if_neg (by omega), ih]
      simp only [List.length_drop, iovTotalLen, List.map_cons, List.sum_cons]
      omega

/-- Flattened contents after `res_write`: the prefix before the offset is
untouched, the bytes of the buffer that fit replace the region starting
at the offset, and everything from `offset + buf.length` on is untouched
(so an over-long write transfers exactly the bytes that fit and touches
nothing further). -/
theorem res_write_flatten (iovs : List Iovec) (offset : Nat) (buf : List Nat) :
    ((res_write iovs offset buf).1).flatten =
      iovs.flatten.take offset ++ buf.take (iovTotalLen iovs - offset) ++
        iovs.flatten.drop (offset + buf.length) := by
  induction iovs generalizing offset buf with
  | nil => simp [res_write, iovTotalLen]
  | cons iov rest ih =>
    simp only [res_write]
    by_cases h : offset ≥ iov.length
    · rw [if_pos h]
      simp only [List.flatten_cons, ih]
      have e1 : (iov ++ rest.flatten).take offset =
          iov ++ rest.flatten.take (offset - iov.length) := by
        conv_lhs =>
          rw [show offset = iov.length + (offset - iov.length) from by omega]
        rw [List.take_append]
      have e2 : (iov ++ rest.flatten).drop (offset + buf.length) =
          rest.flatten.drop (offset - iov.length + buf.length) := by
        conv_lhs =>
          rw [show offset + buf.length =
              iov.length + (offset - iov.length + buf.length) from by omega]
        rw [List.drop_append]
      have e3 : iovTotalLen (iov :: rest) - offset =
          iovTotalLen rest - (offset - iov.length) := by
        simp only [iovTotalLen, List.map_cons, List.sum_cons]
        omega
      rw [e1, e2, e3]
      simp [List.append_assoc]
    · push_neg at h
      rw [if_neg (by omega)]
      simp only [List.flatten_cons, ih, List.take_zero, List.drop_zero,
        List.length_drop, List.nil_append, Nat.zero_add]
      have e1 : (iov ++ rest.flatten).take offset = iov.take offset := by
        rw [List.take_append_of_le_length (by omega)]
      have e3 : iovTotalLen (iov :: rest) - offset =
          (iov.length - offset) + iovTotalLen rest := by
        simp only [iovTotalLen, List.map_cons, List.sum_cons]
        omega
      rcases Nat.le_total buf.length (iov.length - offset) with hn | hn
      · have hmin : min buf.length (iov.length - offset) = buf.length :=
          Nat.min_eq_left hn
        have e2 : (iov ++ rest.flatten).drop (offset + buf.length) =
            iov.drop (offset + buf.length) ++ rest.flatten := by
          rw [List.drop_append_of_le_length (by omega)]
        have e5 : List.take (iov.length - offset + iovTotalLen rest) buf = buf :=
          List.take_of_length_le (by omega)
        rw [hmin, List.take_length, List.drop_length, e1, e2, e3, e5]
        simp [List.append_assoc, Nat.sub_self]
      · have hmin : min buf.length (iov.length - offset) = iov.length - offset :=
          Nat.min_eq_right hn
        have e2 : (iov ++ rest.flatten).drop (offset + buf.length) =
            rest.flatten.drop (buf.length - (iov.length - offset)) := by
          conv_lhs =>
            rw [show offset + buf.length =
                iov.length + (buf.length - (iov.length - offset)) from by omega]
          rw [List.drop_append]
        have e4 : iov.drop (offset + (iov.length - offset)) = [] := by
          rw [show offset + (iov.length - offset) = iov.length from by omega,
            List.drop_length]
        rw [hmin, e1, e2, e3, e4, List.take_add]
        simp [List.append_assoc]

/-- Total length of the flattened iovec contents. -/
theorem iov_flatten_length (iovs : List Iovec) :
    iovs.flatten.length = iovTotalLen iovs := by
  induction iovs with
  | nil => rfl
  | cons iov rest ih => simp [iovTotalLen, ih, List.length_flatten] at *

/-- Lists of lists with the same shape and the same flattening are equal. -/
theorem eq_of_shape_of_flatten : ∀ (xs ys : List (List Nat)),
    xs.map List.length = ys.map List.length → xs.flatten = ys.flatten → xs = ys
  | [], [], _, _ => rfl
  | x :: xs, y :: ys, hs, hf => by
    simp only [List.map_cons, List.cons.injEq] at hs
    simp only [List.flatten_cons] at hf
    obtain ⟨hxy, hrest⟩ := List.append_inj hf hs.1
    rw [hxy, eq_of_shape_of_flatten xs ys hs.2 hrest]

/-- C7: for every resource and every (off, n) whose range fits entirely
within the combined length of the iovecs, `write(off, b, n)` followed by
`read(off, out, n)` succeeds (leftover 0 on both, so no error is thrown)
and the read returns exactly the n written bytes. -/
theorem resource_write_read_roundtrip (iovs : List Iovec) (off : Nat) (b : List Nat)
    (hfit : off + b.length ≤ iovTotalLen iovs) :
    (res_write iovs off b).2 = 0 ∧
      res_read (res_write iovs off b).1 off b.length = (b, 0) := by
  have hF : iovs.flatten.length = iovTotalLen iovs := iov_flatten_length iovs
  constructor
  · rw [res_write_remaining]
    omega
  · rw [res_read_eq, res_write_total, res_write_flatten]
    have hpre : (iovs.flatten.take off).length = off := by
      simp only [List.length_take]
      omega
    have hb : List.take (iovTotalLen iovs - off) b = b :=
      List.take_of_length_le (by omega)
    have hdrop : (iovs.flatten.take off ++
        (b ++ iovs.flatten.drop (off + b.length))).drop off =
        b ++ iovs.flatten.drop (off + b.length) := List.drop_left' hpre
    have htake : (b ++ iovs.flatten.drop (off + b.length)).take b.length = b :=
      List.take_left' rfl
    rw [hb, List.append_assoc, hdrop, htake]
    simp only [Prod.mk.injEq, true_and]
    omega

/-- C7 witness: a concrete in-range write/read round trip. -/
theorem resource_write_read_roundtrip_witness :
    (res_write [[0, 0], [0, 0, 0]] 1 [9, 8, 7]).2 = 0 ∧
      res_read (res_write [[0, 0], [0, 0, 0]] 1 [9, 8, 7]).1 1 3 = ([9, 8, 7], 0) :=
  resource_write_read_roundtrip [[0, 0], [0, 0, 0]] 1 [9, 8, 7] (by decide)

/-- C8 counterexample: with off = 5 and n = 0 on a resource whose iovecs
hold 4 bytes in total, the range is over the end (5 + 0 > 4), yet both
`write` and `read` finish with leftover 0, so neither raises -EINVAL —
the claim as stated fails for empty transfers. -/
theorem resource_short_range_counterexample :
    5 + 0 > iovTotalLen [[1, 2, 3, 4]] ∧
      (res_write [[1, 2, 3, 4]] 5 []).2 = 0 ∧
      (res_read [[1, 2, 3, 4]] 5 0).2 = 0 := by
  decide

/-- C8 (amended): for every nonempty transfer (n > 0) with off + n beyond
the combined iovec length, both `write` and `read` finish with a positive
leftover — on which the C++ code throws -EINVAL — the write transfers
exactly the prefix of the buffer that fits and touches nothing beyond it,
and the read returns exactly the bytes that fit. -/
theorem resource_short_range (iovs : List Iovec) (off n : Nat) (b : List Nat)
    (hlen : b.length = n) (hov : off + n > iovTotalLen iovs) (hpos : 0 < n) :
    (res_write iovs off b).2 > 0 ∧
      (res_read iovs off n).2 > 0 ∧
      (res_write iovs off b).1 =
        (res_write iovs off (b.take (iovTotalLen iovs - off))).1 ∧
      (res_read iovs off n).1 = (iovs.flatten.drop off).take n := by
  have hF : iovs.flatten.length = iovTotalLen iovs := iov_flatten_length iovs
  refine ⟨?_, ?_, ?_, ?_⟩
  · rw [res_write_remaining]
    omega
  · rw [res_read_eq]
    omega
  · apply eq_of_shape_of_flatten
    · rw [res_write_shape, res_write_shape]
    · rw [res_write_flatten, res_write_flatten]
      have h1 : iovs.flatten.drop (off + b.length) = [] :=
        List.drop_eq_nil_iff.mpr (by omega)
      have h2 : iovs.flatten.drop (off + (b.take (iovTotalLen iovs - off)).length) =
          [] := by
        apply List.drop_eq_nil_iff.mpr
        simp only [List.length_take]
        omega
      rw [h1, h2, List.take_take, Nat.min_self]
  · rw [res_read_eq]

/-- C8 amended-claim witness: a concrete over-long write and read on a
4-byte resource. -/
theorem resource_short_range_witness :
    (res_write [[1, 2, 3, 4]] 2 [9, 9, 9]).2 > 0 ∧
      (res_read [[1, 2, 3, 4]] 2 3).2 > 0 ∧
      (res_write [[1, 2, 3, 4]] 2 [9, 9, 9]).1 =
        (res_write [[1, 2, 3, 4]] 2 ([9, 9, 9].take (iovTotalLen [[1, 2, 3, 4]] - 2))).1 ∧
      (res_read [[1, 2, 3, 4]] 2 3).1 = (([[1, 2, 3, 4]] : List Iovec).flatten.drop 2).take 3 :=
  resource_short_range [[1, 2, 3, 4]] 2 3 [9, 9, 9] (by decide) (by decide) (by decide)

/-- For a 1-based command id between 1 and 11, the uint32 computation
`hdr->cmd - 1` gives the 0-based table index. -/
theorem ccmd_index_eq (c : Nat) (h1 : 1 ≤ c) (h2 : c ≤ 11) :
    (c + (2 ^ 32 - 1)) % 2 ^ 32 = c - 1 := by
  have h3 : c + (2 ^ 32 - 1) = (c - 1) + 1 * 2 ^ 32 := by omega
  rw [h3, Nat.add_mul_mod_self_right, Nat.mod_eq_of_lt (by omega)]

/-- C1 (code evaluated at the failing input): for the spec's own test
header {cmd 0, len 16, seqno 1, rsp_off 0}, `dispatch_ccmd` does not
reject with -EINVAL: `hdr->cmd == 0` passes the only guard
(`hdr->cmd > 11`), the uint32 index `0 - 1` wraps to 4294967295, and the
dispatch table is read out of bounds (undefined behavior), whatever the
request sizes are; a cmd of 12 is, as claimed, rejected with -EINVAL. -/
theorem dispatch_ccmd_cmd_zero_oob :
    dispatch_ccmd (fun _ => 16) ⟨0, 16, 1, 0⟩ (List.replicate 16 0) =
      DispatchOutcome.oobTableRead (2 ^ 32 - 1) ∧
    DispatchOutcome.oobTableRead (2 ^ 32 - 1) ≠ DispatchOutcome.throwErr (-22) ∧
    dispatch_ccmd (fun _ => 16) ⟨12, 16, 1, 0⟩ (List.replicate 16 0) =
      DispatchOutcome.throwErr (-22) := by
  refine ⟨by decide, by decide, by decide⟩

/-- C3: for every valid 1-based command id, an undersized header
(`hdr.len < E.size`) is rejected with -EINVAL without invoking the
handler, while `hdr.len ≥ E.size` (oversized included) proceeds to the
selected handler with the `hdr.len`-byte copy of the guest packet. -/
theorem dispatch_ccmd_length_gate (sizes : Fin 11 → Nat) (hdr : vdrm_ccmd_req)
    (guest : List Nat) (h1 : 1 ≤ hdr.cmd) (h2 : hdr.cmd ≤ 11) :
    (hdr.len < sizes ⟨hdr.cmd - 1, by omega⟩ →
      dispatch_ccmd sizes hdr guest = DispatchOutcome.throwErr (-22)) ∧
    (sizes ⟨hdr.cmd - 1, by omega⟩ ≤ hdr.len →
      dispatch_ccmd sizes hdr guest =
        DispatchOutcome.handlerInvoked ⟨hdr.cmd - 1, by omega⟩
          (guest.take hdr.len)) := by
  have hidx : (hdr.cmd + (2 ^ 32 - 1)) % 2 ^ 32 = hdr.cmd - 1 :=
    ccmd_index_eq hdr.cmd h1 h2
  constructor
  · intro hlt
    simp only [dispatch_ccmd, hidx, AMDXDNA_CCMD_COUNT]
    rw [if_neg (by omega), dif_pos (by omega : hdr.cmd - 1 < 11)]
    simp only [amdxdna_ccmd_dispatch_table, Bool.true_eq_false, if_false]
    rw [if_pos hlt]
  · intro hge
    simp only [dispatch_ccmd, hidx, AMDXDNA_CCMD_COUNT]
    rw [if_neg (by omega), dif_pos (by omega : hdr.cmd - 1 < 11)]
    simp only [amdxdna_ccmd_dispatch_table, Bool.true_eq_false, if_false]
    rw [if_neg (by omega), if_neg (by omega)]
    have hmax : max (sizes ⟨hdr.cmd - 1, by omega⟩) hdr.len = hdr.len :=
      Nat.max_eq_right hge
    rw [hmax, Nat.sub_self, List.replicate_zero, List.append_nil]

/-- C3 witness: command 3 (create_bo) with entry size 16; len 8 is
rejected, len 24 reaches handler 2 with the 24-byte copy. -/
theorem dispatch_ccmd_length_gate_witness :
    dispatch_ccmd (fun _ => 16) ⟨3, 8, 0, 0⟩ (List.replicate 8 5) =
      DispatchOutcome.throwErr (-22) ∧
    dispatch_ccmd (fun _ => 16) ⟨3, 24, 0, 0⟩ (List.replicate 24 5) =
      DispatchOutcome.handlerInvoked ⟨2, by omega⟩
        ((List.replicate 24 5).take 24) :=
  ⟨(dispatch_ccmd_length_gate (fun _ => 16) ⟨3, 8, 0, 0⟩ (List.replicate 8 5)
      (by decide) (by decide)).1 (by decide),
   (dispatch_ccmd_length_gate (fun _ => 16) ⟨3, 24, 0, 0⟩ (List.replicate 24 5)
      (by decide) (by decide)).2 (by decide)⟩

/-- C2 (code evaluated at the failing input): a truncated-but-legal
exec_cmd header (cmd 8, hdr.len four bytes short of the request size) is
rejected with -EINVAL instead of succeeding with zero-filled trailing
bytes; moreover no handler is ever invoked with `hdr.len < E.size`, so
the zero-fill forward-compatibility path of `dispatch_ccmd` is
unreachable. -/
theorem dispatch_ccmd_truncated_rejected :
    dispatch_ccmd (fun _ => 16) ⟨8, 12, 1, 0⟩ (List.replicate 12 7) =
      DispatchOutcome.throwErr (-22) ∧
    ∀ (sizes : Fin 11 → Nat) (hdr : vdrm_ccmd_req) (guest : List Nat)
      (i : Fin 11) (s : List Nat),
      dispatch_ccmd sizes hdr guest = DispatchOutcome.handlerInvoked i s →
        sizes i ≤ hdr.len := by
  constructor
  · decide
  · intro sizes hdr guest i s hout
    unfold dispatch_ccmd at hout
    by_cases hc : hdr.cmd > AMDXDNA_CCMD_COUNT
    · rw [if_pos hc] at hout
      exact absurd hout (by simp)
    · rw [if_neg hc] at hout
      by_cases hidx : (hdr.cmd + (2 ^ 32 - 1)) % 2 ^ 32 < AMDXDNA_CCMD_COUNT
      · rw [dif_pos hidx] at hout
        simp only [amdxdna_ccmd_dispatch_table, Bool.true_eq_false, if_false] at hout
        by_cases hlen : hdr.len < sizes ⟨(hdr.cmd + (2 ^ 32 - 1)) % 2 ^ 32, hidx⟩
        · rw [if_pos hlen] at hout
          exact absurd hout (by simp)
        · rw [if_neg hlen] at hout
          simp only [DispatchOutcome.handlerInvoked.injEq] at hout
          obtain ⟨hi, _⟩ := hout
          subst hi
          omega
      · rw [dif_neg hidx] at hout
        exact absurd hout (by simp)

/-- C2 witness: the unreachability statement applied at a concrete
dispatch that does reach a handler. -/
theorem dispatch_ccmd_truncated_rejected_witness :
    (fun _ : Fin 11 => 8) ⟨0, by omega⟩ ≤ (8 : Nat) :=
  dispatch_ccmd_truncated_rejected.2 (fun _ => 8) ⟨1, 8, 0, 0⟩
    (List.replicate 8 0) ⟨0, by omega⟩ (List.replicate 8 0) (by decide)

/-- C4: whatever the outcome of each `SYNCOBJ_TIMELINE_WAIT` (success,
error, or timeout — `wait_ret` is arbitrary), the retirement worker
invokes `write_context_fence` exactly once per drained fence, front to
back in queue order: the callback trace is exactly the fence-id list of
the drained batch.  Queue order is submission order, because
`submit_fence` appends every enqueued record at the back of the pending
FIFO (second conjunct). -/
theorem poll_and_retire_exactly_once (hw : HwctxIds)
    (wait_ret : vaccel_fence → Int) (fences : List vaccel_fence) :
    fenceCallbacks (poll_and_retire_pending hw wait_ret fences) =
      fences.map (fun f => (hw.cookie, hw.ctx_id, hw.hwctx_handle, f.id)) ∧
    ∀ (s : HwctxSlotState) (fid : Nat),
      (submit_fence hw { s with has_sync_point := true } fid).1.pending_fences =
        s.pending_fences ++
          [⟨fid, s.sync_point, hw.syncobj_handle, hw.hwctx_handle,
            s.timeout_nsec⟩] := by
  constructor
  · induction fences with
    | nil => rfl
    | cons fence rest ih =>
      by_cases h : wait_ret fence ≠ 0
      · simp only [poll_and_retire_pending, if_pos h, List.map_cons]
        simp [fenceCallbacks, ih]
      · simp only [poll_and_retire_pending, if_neg h, List.map_cons]
        simp [fenceCallbacks, ih]
  · intro s fid
    simp [submit_fence]

/-- C5: the sync-point slot is a two-state machine.  Empty → Latched
happens only through wait_cmd's `set_sync_point`, Latched → Empty only
through `submit_fence`; a submit on an Empty slot invokes the retirement
callback synchronously and enqueues nothing, and a submit on a Latched
slot enqueues one fence record carrying the latched sync point and
timeout, clears the latch, and invokes no callback. -/
theorem hwctx_slot_state_machine (hw : HwctxIds) (s : HwctxSlotState) :
    (∀ op : HwctxOp, (hwctx_step hw s op).1.has_sync_point = true →
      s.has_sync_point = false → ∃ seq t, op = HwctxOp.waitCmd seq t) ∧
    (∀ op : HwctxOp, (hwctx_step hw s op).1.has_sync_point = false →
      s.has_sync_point = true → ∃ fid, op = HwctxOp.submitFence fid) ∧
    (∀ fid, s.has_sync_point = false →
      hwctx_step hw s (HwctxOp.submitFence fid) =
        (s, [HwctxEvent.writeContextFence hw.cookie hw.ctx_id hw.hwctx_handle
              fid])) ∧
    (∀ fid, s.has_sync_point = true →
      hwctx_step hw s (HwctxOp.submitFence fid) =
        ({ s with
            pending_fences := s.pending_fences ++
              [⟨fid, s.sync_point, hw.syncobj_handle, hw.hwctx_handle,
                s.timeout_nsec⟩],
            has_sync_point := false }, [])) ∧
    (∀ seq t, (hwctx_step hw s (HwctxOp.waitCmd seq t)).1.has_sync_point = true ∧
      (hwctx_step hw s (HwctxOp.waitCmd seq t)).1.sync_point = seq ∧
      (hwctx_step hw s (HwctxOp.waitCmd seq t)).1.timeout_nsec = t ∧
      (hwctx_step hw s (HwctxOp.waitCmd seq t)).1.pending_fences =
        s.pending_fences) := by
  refine ⟨?_, ?_, ?_, ?_, ?_⟩
  · intro op hafter hbefore
    cases op with
    | waitCmd seq t => exact ⟨seq, t, rfl⟩
    | submitFence fid =>
      exfalso
      simp only [hwctx_step, submit_fence, hbefore] at hafter
      simp at hafter
      rw [hafter] at hbefore
      exact absurd hbefore (by simp)
  · intro op hafter hbefore
    cases op with
    | waitCmd seq t =>
      exfalso
      simp [hwctx_step, set_sync_point] at hafter
    | submitFence fid => exact ⟨fid, rfl⟩
  · intro fid hempty
    simp [hwctx_step, submit_fence, hempty]
  · intro fid hlatched
    simp [hwctx_step, submit_fence, hlatched]
  · intro seq t
    simp [hwctx_step, set_sync_point]

/-- C5 witness: a concrete Empty slot; a submit on it fires the callback
synchronously and enqueues nothing. -/
theorem hwctx_slot_state_machine_witness :
    hwctx_step ⟨1, 2, 3, 4⟩ ⟨0, 0, false, []⟩ (HwctxOp.submitFence 7) =
      (⟨0, 0, false, []⟩,
       [HwctxEvent.writeContextFence 1 2 3 7]) :=
  (hwctx_slot_state_machine ⟨1, 2, 3, 4⟩ ⟨0, 0, false, []⟩).2.2.1 7 rfl

/-- An error response is always 8 bytes on the wire. -/
theorem amdxdna_ccmd_rsp_bytes_length (ret : Int) (len : Nat) :
    (amdxdna_ccmd_rsp_bytes ret len).length = 8 := rfl

/-- C6 counterexample: dispatching `init` (table entry 1) with the named
resource missing raises the structured error -EINVAL, the error
propagates, the context's bound response resource is left untouched, and
its offset 0 does not hold the generic error response — `init` is not
inside the error-wrapping shim. -/
theorem init_error_not_wrapped :
    vxdna_ccmd_init none (some [[7, 7, 7, 7, 7, 7, 7, 7]]) =
      (Except.error (-22), some [[7, 7, 7, 7, 7, 7, 7, 7]]) ∧
    handler_uses_error_wrap ⟨1, by omega⟩ = false ∧
    (res_read [[7, 7, 7, 7, 7, 7, 7, 7]] 0 8).1 ≠
      amdxdna_ccmd_rsp_bytes (-22) amdxdna_ccmd_rsp_size := by
  refine ⟨rfl, rfl, by decide⟩

/-- C6 (amended): the nine dispatched CCMD handlers other than nop and
init run inside `vxdna_ccmd_error_wrap`; whenever such a body raises a
structured error and the bound response resource holds at least the 8
response-header bytes, the wrap writes the generic error response
{ret = code, len = sizeof(rsp)} at offset 0 of that resource before the
error propagates. -/
theorem ccmd_error_wrap_writes_err_rsp (body : List Iovec → HandlerOutcome)
    (resp : List Iovec) (c : Int) (r : List Iovec)
    (hbody : body resp = HandlerOutcome.vaccelErr c r)
    (hroom : 8 ≤ iovTotalLen r) :
    (∀ i : Fin 11, 2 ≤ i.val → handler_uses_error_wrap i = true) ∧
    vxdna_ccmd_error_wrap body resp =
      HandlerOutcome.vaccelErr c (write_err_rsp r c).1 ∧
    (res_read (write_err_rsp r c).1 0 8).1 =
      amdxdna_ccmd_rsp_bytes c amdxdna_ccmd_rsp_size ∧
    (res_read (write_err_rsp r c).1 0 8).2 = 0 := by
  have hlen : (amdxdna_ccmd_rsp_bytes c amdxdna_ccmd_rsp_size).length = 8 :=
    amdxdna_ccmd_rsp_bytes_length c amdxdna_ccmd_rsp_size
  have hT : iovTotalLen (write_err_rsp r c).1 = iovTotalLen r := by
    unfold write_err_rsp
    exact res_write_total r 0 _
  have hflat : ((write_err_rsp r c).1).flatten =
      amdxdna_ccmd_rsp_bytes c amdxdna_ccmd_rsp_size ++ r.flatten.drop 8 := by
    unfold write_err_rsp
    rw [res_write_flatten]
    simp only [List.take_zero, List.nil_append, Nat.sub_zero, Nat.zero_add, hlen]
    rw [List.take_of_length_le (by omega)]
  refine ⟨fun i hi => by simpa [handler_uses_error_wrap] using hi, ?_, ?_, ?_⟩
  · unfold vxdna_ccmd_error_wrap
    rw [hbody]
  · rw [res_read_eq, hflat]
    simp only [List.drop_zero]
    exact List.take_left' hlen
  · rw [res_read_eq, hT]
    simp only
    omega

/-- C6 amended-claim witness: a concrete body throwing -EINVAL over a
9-byte response resource; the wrap leaves the error response at offset
0. -/
theorem ccmd_error_wrap_writes_err_rsp_witness :
    (∀ i : Fin 11, 2 ≤ i.val → handler_uses_error_wrap i = true) ∧
    vxdna_ccmd_error_wrap
        (fun _ => HandlerOutcome.vaccelErr (-22) [[1, 2, 3, 4, 5], [6, 7, 8, 9]])
        [[0]] =
      HandlerOutcome.vaccelErr (-22)
        (write_err_rsp [[1, 2, 3, 4, 5], [6, 7, 8, 9]] (-22)).1 ∧
    (res_read (write_err_rsp [[1, 2, 3, 4, 5], [6, 7, 8, 9]] (-22)).1 0 8).1 =
      amdxdna_ccmd_rsp_bytes (-22) amdxdna_ccmd_rsp_size ∧
    (res_read (write_err_rsp [[1, 2, 3, 4, 5], [6, 7, 8, 9]] (-22)).1 0 8).2 = 0 :=
  ccmd_error_wrap_writes_err_rsp
    (fun _ => HandlerOutcome.vaccelErr (-22) [[1, 2, 3, 4, 5], [6, 7, 8, 9]])
    [[0]] (-22) [[1, 2, 3, 4, 5], [6, 7, 8, 9]] rfl (by decide)

/-- C9 counterexample: `get_capset_info` yields max_version 1 but
max_size 20 — the size of the five-field capset structure — not 16 as
claimed. -/
theorem get_capset_info_size_not_16 :
    get_capset_info = (1, 20) ∧ (20 : Nat) ≠ 16 := by
  decide

/-- C9 (amended): after a Device is created with the AMDXDNA capset,
`get_capset_info` returns max_version = version_major = 1 and max_size =
sizeof(capset) = 20. -/
theorem get_capset_info_eq :
    get_capset_info = (vxdna_capset.version_major, vaccel_drm_capset_size) ∧
    get_capset_info = (1, 20) := ⟨rfl, rfl⟩

/-- C10: for every successfully created BO (device-only or
resource-backed), the create_bo response carries the kernel-assigned
handle; its xdna_addr equals the kernel-returned xdna_addr when that is
not AMDXDNA_INVALID_ADDR, and otherwise silently falls back to the BO's
vaddr (the get-bo-info vaddr for device-only BOs, the mmap result for
resource-backed BOs). -/
theorem create_bo_rsp_fields_correct (req_size req_bo_type map_size : Nat)
    (create_handle : Nat) (bo_info : amdxdna_drm_get_bo_info)
    (mmap_vaddr : Nat) :
    (create_bo_rsp_of (vxdna_bo_dev req_size req_bo_type create_handle
        bo_info)).handle = create_handle ∧
    (create_bo_rsp_of (vxdna_bo_res req_size req_bo_type map_size create_handle
        bo_info mmap_vaddr)).handle = create_handle ∧
    (bo_info.xdna_addr ≠ AMDXDNA_INVALID_ADDR →
      (create_bo_rsp_of (vxdna_bo_dev req_size req_bo_type create_handle
          bo_info)).xdna_addr = bo_info.xdna_addr ∧
      (create_bo_rsp_of (vxdna_bo_res req_size req_bo_type map_size
          create_handle bo_info mmap_vaddr)).xdna_addr = bo_info.xdna_addr) ∧
    (bo_info.xdna_addr = AMDXDNA_INVALID_ADDR →
      (create_bo_rsp_of (vxdna_bo_dev req_size req_bo_type create_handle
          bo_info)).xdna_addr = bo_info.vaddr ∧
      (create_bo_rsp_of (vxdna_bo_res req_size req_bo_type map_size
          create_handle bo_info mmap_vaddr)).xdna_addr = mmap_vaddr) := by
  refine ⟨rfl, rfl, ?_, ?_⟩
  · intro h
    constructor
    · simp [create_bo_rsp_of, vxdna_bo.get_addr, vxdna_bo_dev, h]
    · simp [create_bo_rsp_of, vxdna_bo.get_addr, vxdna_bo_res, h]
  · intro h
    constructor
    · simp [create_bo_rsp_of, vxdna_bo.get_addr, vxdna_bo_dev, h]
    · simp [create_bo_rsp_of, vxdna_bo.get_addr, vxdna_bo_res, h]

/-- C10 witness: a BO whose kernel xdna_addr is invalid falls back to
the vaddr; the handle is the kernel one. -/
theorem create_bo_rsp_fields_correct_witness :
    (create_bo_rsp_of (vxdna_bo_dev 4096 0 33
        ⟨65536, 777, AMDXDNA_INVALID_ADDR⟩)).xdna_addr = 777 ∧
    (create_bo_rsp_of (vxdna_bo_res 4096 0 8192 33
        ⟨65536, 777, AMDXDNA_INVALID_ADDR⟩ 999)).xdna_addr = 999 :=
  (create_bo_rsp_fields_correct 4096 0 8192 33
      ⟨65536, 777, AMDXDNA_INVALID_ADDR⟩ 999).2.2.2 rfl
